import Mathlib

/-!
Verification of the queue lifecycle and buffer state machine of a V4L2
user-space abstraction (files `src/device/queue.rs` and
`lib/src/memory/dmabuf.rs`).

The embedding is shallow: the per-buffer state table is a `List` of
`BufferState`, the device's set of checked-out queue types is a
`Finset QueueType`, fallible device-control calls (ioctls) are passed in as
explicit outcomes, and Rust panics (`unreachable!`, out-of-bounds `Vec`
indexing) are modelled as dedicated `panic` / `fatal` result constructors.
The `Weak` back-reference held by a `BufferStateFuse` is modelled by a
Boolean `armed` flag on the fuse (`disarm` replaces the weak reference by
`Weak::new()`, i.e. clears the flag) together with an `Option` for the
table (`none` when the strong reference count has dropped to zero, so
`upgrade` fails).
-/

namespace V4l2

/-- Per-buffer state, from `enum BufferState<M>` in `queue.rs`.
`H` is the plane-handle payload type (`PlaneHandles<M> = Vec<M::DQBufType>`
is modelled as `List H`). -/
inductive BufferState (H : Type) where
  /-- The buffer can be obtained via `get_buffer()` and be queued. -/
  | Free
  /-- Requested via `get_buffer()` but not queued yet (Reserved). -/
  | PreQueue
  /-- Queued and waiting to be dequeued; holds the plane handles. -/
  | Queued (handles : List H)
  /-- Dequeued, still referenced by the client. -/
  | Dequeued
deriving DecidableEq

/-- The queue types appearing in `queue.rs` (`get_output_queue` etc.). -/
inductive QueueType where
  | VideoOutput
  | VideoOutputMplane
  | VideoCapture
  | VideoCaptureMplane
deriving DecidableEq

/-- `struct BufferStateFuse<M>` from `queue.rs`: a weak reference to the
shared buffer-state table plus a buffer index. `armed = true` models a
weak reference still pointing at the table (as created by
`Arc::downgrade`); `armed = false` models the `Weak::new()` placeholder
installed by `disarm`. -/
structure BufferStateFuse where
  armed : Bool
  index : Nat
deriving DecidableEq

/-- `BufferStateFuse::new`: a fuse freshly armed for `index` (the code
always creates it with `Arc::downgrade` of the live table). -/
def BufferStateFuse.new (index : Nat) : BufferStateFuse :=
  { armed := true, index := index }

/-- `BufferStateFuse::disarm`: drop the weak reference
(`self.buffers_state = Weak::new()`). -/
def BufferStateFuse.disarm (f : BufferStateFuse) : BufferStateFuse :=
  { f with armed := false }

/-- `impl Drop for BufferStateFuse` from `queue.rs`: on drop, try to
upgrade the weak reference; on success set slot `index` to `Free`,
otherwise do nothing. The table being discarded (queue back to `Init` /
freed) is `none`; the upgrade succeeds exactly when the fuse is armed and
the table is still alive. The function is total: no failure path exists. -/
def fuseDrop {H : Type} (f : BufferStateFuse)
    (table : Option (List (BufferState H))) : Option (List (BufferState H)) :=
  match table, f.armed with
  | some t, true => some (t.set f.index .Free)
  | t, _ => t

/-- Outcome of `Queue::create` from `queue.rs`, together with the device's
`used_queues` set after the call. `deviceError` carries the unchanged set
(the `?` on `reqbufs` returns before the insertion). -/
inductive CreateResult where
  | ok (used : Finset QueueType)
  | alreadyBorrowed
  | deviceError (used : Finset QueueType)
deriving DecidableEq

/-- `Queue::create` from `queue.rs`, as a function of the device's
`used_queues` set. The zero-size `reqbufs` probe is an external ioctl;
its outcome is the argument `reqbufsOk`. The code checks membership first
(`Error::AlreadyBorrowed`), then probes, and inserts the type only after
the probe succeeds. -/
def Queue.create (used : Finset QueueType) (qt : QueueType)
    (reqbufsOk : Bool) : CreateResult :=
  if qt ∈ used then .alreadyBorrowed
  else if reqbufsOk then .ok (insert qt used)
  else .deviceError used

/-- `impl Drop for QueueBase` from `queue.rs`: removes the queue's type
from the device's `used_queues` set. -/
def QueueBase.drop (used : Finset QueueType) (qt : QueueType) :
    Finset QueueType :=
  used.erase qt

/-- The `BuffersAllocated<M>` state payload from `queue.rs` (`states.rs`
gives it exactly these three fields, visible at the construction site in
`request_buffers`): granted buffer count, the shared buffer-state table,
and the per-buffer layout cached from `querybuf` (modelled opaquely as
`F`). -/
structure BuffersAllocated (H F : Type) where
  num_buffers : Nat
  buffers_state : List (BufferState H)
  buffer_features : F
deriving DecidableEq

/-- `Queue::request_buffers` from `queue.rs`. The two ioctls are external:
`reqbufsResult` is the count granted by `reqbufs` (or `none` on failure,
in which case the `?` propagates the error), and `querybuf id` the layout
query for buffer `id` (the code queries index 0 only). On success the
table holds one `Free` entry per granted buffer. -/
def Queue.request_buffers {H F : Type} (reqbufsResult : Option Nat)
    (querybuf : Nat → Option F) : Option (BuffersAllocated H F) :=
  match reqbufsResult with
  | none => none
  | some num_buffers =>
    match querybuf 0 with
    | none => none
    | some feat =>
      some { num_buffers := num_buffers
             buffers_state := List.replicate num_buffers .Free
             buffer_features := feat }

/-- `Queue::num_buffers` from `queue.rs`: returns `state.num_buffers`. -/
def Queue.numBuffers {H F : Type} (q : BuffersAllocated H F) : Nat :=
  q.num_buffers

/-- The fields of `struct v4l2_plane` that `fill_v4l2_plane` touches, plus
`bytesused` to witness that other fields are left alone. `length` is a
`u32` in the kernel ABI, `m.fd` a C `int`. -/
structure V4l2Plane where
  bytesused : Nat
  length : Nat
  m_fd : Int
deriving DecidableEq

/-- `trait DMABufSource` from `dmabuf.rs`: any resource yielding a raw
file descriptor (`AsRawFd`) and a byte length (`len(&self) -> u64`). -/
class DMABufSource (T : Type) where
  as_raw_fd : T → Int
  len : T → Nat

/-- `struct DMABufHandle<T>(pub T)` from `dmabuf.rs`. -/
structure DMABufHandle (T : Type) where
  src : T
deriving DecidableEq

/-- `impl<T> From<T> for DMABufHandle<T>` from `dmabuf.rs` (named
`fromSrc` because `from` is reserved in Lean): total, never fails. -/
def DMABufHandle.fromSrc {T : Type} (dmabuf : T) : DMABufHandle T :=
  { src := dmabuf }

/-- `DMABufHandle::fill_v4l2_plane` from `dmabuf.rs`:
`plane.m.fd = self.0.as_raw_fd(); plane.length = self.0.len() as u32;`.
The `as u32` cast truncates the `u64` length modulo `2 ^ 32`. -/
def DMABufHandle.fill_v4l2_plane {T : Type} [DMABufSource T]
    (h : DMABufHandle T) (plane : V4l2Plane) : V4l2Plane :=
  { plane with
    m_fd := DMABufSource.as_raw_fd h.src
    length := DMABufSource.len h.src % 2 ^ 32 }

/-- A model of `std::fs::File` as a DMABuf source: its descriptor and the
result of `metadata()` (`none` when the size cannot be determined). -/
structure FileModel where
  fd : Int
  metadata : Option Nat
deriving DecidableEq

/-- `impl DMABufSource for File` from `dmabuf.rs`: `len` is the metadata
size, or 0 (with a logged warning, not modelled) when `metadata()`
fails. -/
instance : DMABufSource FileModel where
  as_raw_fd f := f.fd
  len f :=
    match f.metadata with
    | none => 0
    | some m => m

/-- A minimal DMABuf source used to instantiate generic theorems: a raw
descriptor and an arbitrary 64-bit size. -/
structure RawSrc where
  fd : Int
  size : Nat
deriving DecidableEq

instance : DMABufSource RawSrc where
  as_raw_fd s := s.fd
  len s := s.size

/-- Outcome of `Queue::get_buffer` from `queue.rs`, with the table after
the call. `ok` carries the data `QBuffer::new(self, id, num_planes, fuse)`
receives; `panic` models the Rust panic raised by the unchecked
`buffers_state[id]` indexing when `id` is out of range. -/
inductive GetBufferResult (H : Type) where
  | ok (fuse : BufferStateFuse) (id num_planes : Nat)
      (table : List (BufferState H))
  | alreadyBorrowed (table : List (BufferState H))
  | panic
deriving DecidableEq

/-- `Queue::get_buffer` from `queue.rs`: index the table (Rust `Vec`
indexing panics when `id ≥ len`), fail with `Error::AlreadyBorrowed`
unless the slot is `Free`, otherwise set the slot to `PreQueue`, arm a
fuse for `id` and return the queueing object. `num_planes` is
`buffer_features.planes.len()`, passed in as a parameter. -/
def Queue.get_buffer {H : Type} (table : List (BufferState H))
    (num_planes : Nat) (id : Nat) : GetBufferResult H :=
  match table[id]? with
  | none => .panic
  | some .Free =>
    .ok (BufferStateFuse.new id) id num_planes (table.set id .PreQueue)
  | some _ => .alreadyBorrowed table

/-- `struct CanceledBuffer<M>` from `queue.rs`: index and plane handles
of a queued buffer forcibly returned to `Free` by `streamoff`. -/
structure CanceledBuffer (H : Type) where
  index : Nat
  plane_handles : List H
deriving DecidableEq

/-- The table traversal of `Queue::streamoff` from `queue.rs`:
`iter_mut().enumerate().filter_map(...)` starting at index `i`. Each
`Queued` slot is replaced by `Free` in place and contributes a
`CanceledBuffer` stealing its handles; every other slot is skipped and
left as is. Returns the collected canceled buffers (in traversal order)
and the updated table. -/
def streamoffAux {H : Type} :
    Nat → List (BufferState H) →
      List (CanceledBuffer H) × List (BufferState H)
  | _, [] => ([], [])
  | i, s :: rest =>
    let r := streamoffAux (i + 1) rest
    match s with
    | .Queued handles =>
      ({ index := i, plane_handles := handles } :: r.1, .Free :: r.2)
    | other => (r.1, other :: r.2)

/-- `Queue::streamoff` from `queue.rs`, once the device-level `streamoff`
ioctl has succeeded (on ioctl failure the `?` returns before the table is
touched): traverse the table from index 0. -/
def Queue.streamoff {H : Type} (table : List (BufferState H)) :
    List (CanceledBuffer H) × List (BufferState H) :=
  streamoffAux 0 table

/-- The pointwise slot transformation `streamoff` performs: `Queued`
becomes `Free`, every other state is untouched. -/
def freeIfQueued {H : Type} : BufferState H → BufferState H
  | .Queued _ => .Free
  | s => s

/-- The index-and-metadata payload returned by the device-level
`ioctl::dqbuf` call (metadata — bytes used, timestamp, flags — is opaque
to the core and modelled by the type parameter `Meta`). -/
structure IoctlDQBuffer (Meta : Type) where
  index : Nat
  meta : Meta
deriving DecidableEq

/-- Modelled from the spec: `DQBuffer::new(plane_handles, dqbuf, fuse)`
lives in `dqbuf.rs`, which is not part of the provided sources; per the
spec the dequeued-buffer object owns the recovered plane handles, the
device-reported metadata passed through opaquely, and the new fuse, so it
is modelled as the record of the three constructor arguments. -/
structure DQBuffer (H Meta : Type) where
  plane_handles : List H
  dqbuf : IoctlDQBuffer Meta
  fuse : BufferStateFuse
deriving DecidableEq

/-- Outcome of `Queue::dequeue` from `queue.rs` once the device-level
`dqbuf` ioctl has succeeded with payload `dqbuf`. `fatal` models the
panic paths: the `unreachable!("Inconsistent buffer state")` when the
slot at the returned index is not `Queued`, and the `Vec` indexing panic
when the index is out of range. -/
inductive DequeueResult (H Meta : Type) where
  | ok (dq : DQBuffer H Meta) (table : List (BufferState H))
  | fatal
deriving DecidableEq

/-- `Queue::dequeue` from `queue.rs`, given a successful device dequeue
returning `dqbuf`: swap slot `dqbuf.index` to `Dequeued`, recover the
plane handles the slot held (fatal logic error unless it was `Queued`),
arm a new fuse for the index and build the `DQBuffer`. -/
def Queue.dequeue {H Meta : Type} (table : List (BufferState H))
    (dqbuf : IoctlDQBuffer Meta) : DequeueResult H Meta :=
  match table[dqbuf.index]? with
  | some (.Queued plane_handles) =>
    .ok { plane_handles := plane_handles
          dqbuf := dqbuf
          fuse := BufferStateFuse.new dqbuf.index }
      (table.set dqbuf.index .Dequeued)
  | _ => .fatal

end V4l2

namespace V4l2

/-- C1: dropping a fuse armed for index `i` with the table alive sets slot
`i` to `Free`; with the table already discarded it is a no-op that cannot
fail; a disarmed fuse leaves even a live table untouched. -/
theorem fuse_drop_spec {H : Type} (i : Nat) (t : List (BufferState H))
    (h : i < t.length) :
    fuseDrop (BufferStateFuse.new i) (some t) = some (t.set i .Free) ∧
    fuseDrop (H := H) (BufferStateFuse.new i) none = none ∧
    fuseDrop ((BufferStateFuse.new i).disarm) (some t) = some t := by
  exact ⟨rfl, rfl, rfl⟩

/-- Witness for C1 at a concrete two-slot table. -/
theorem fuse_drop_spec_witness :
    fuseDrop (BufferStateFuse.new 1)
        (some [BufferState.Free, BufferState.Dequeued (H := Nat)]) =
      some [BufferState.Free, BufferState.Free] ∧
    fuseDrop (H := Nat) (BufferStateFuse.new 1) none = none ∧
    fuseDrop ((BufferStateFuse.new 1).disarm)
        (some [BufferState.Free, BufferState.Dequeued (H := Nat)]) =
      some [BufferState.Free, BufferState.Dequeued] := by
  exact fuse_drop_spec 1 [BufferState.Free, BufferState.Dequeued] (by decide)

/-- C6: creating a queue whose type is already in the device's in-use set
fails with `AlreadyBorrowed` regardless of the probe outcome; after the
live queue is dropped (erasing the type), a new creation with a successful
probe succeeds. -/
theorem create_contention_spec (used : Finset QueueType) (qt : QueueType)
    (b : Bool) (h : qt ∈ used) :
    Queue.create used qt b = .alreadyBorrowed ∧
    Queue.create (QueueBase.drop used qt) qt true =
      .ok (insert qt (used.erase qt)) := by
  constructor
  · simp [Queue.create, h]
  · simp [Queue.create, QueueBase.drop, Finset.not_mem_erase]

/-- Witness for C6 with a singleton in-use set. -/
theorem create_contention_spec_witness :
    Queue.create {QueueType.VideoOutput} QueueType.VideoOutput true =
      .alreadyBorrowed ∧
    Queue.create (QueueBase.drop {QueueType.VideoOutput} QueueType.VideoOutput)
        QueueType.VideoOutput true =
      .ok (insert QueueType.VideoOutput
        (({QueueType.VideoOutput} : Finset QueueType).erase
          QueueType.VideoOutput)) := by
  exact create_contention_spec {QueueType.VideoOutput} QueueType.VideoOutput
    true (by decide)

/-- C10: when the queue type is not in use and the zero-size allocation
probe fails, `Queue::create` returns the device error with `used_queues`
exactly as before, and a later creation of the same type (with a
successful probe) succeeds. The type is inserted only on the success
path. -/
theorem create_probe_atomic (used : Finset QueueType) (qt : QueueType)
    (h : qt ∉ used) :
    Queue.create used qt false = .deviceError used ∧
    Queue.create used qt true = .ok (insert qt used) := by
  constructor
  · simp [Queue.create, h]
  · simp [Queue.create, h]

/-- Witness for C10 on the empty in-use set. -/
theorem create_probe_atomic_witness :
    Queue.create ∅ QueueType.VideoCapture false = .deviceError ∅ ∧
    Queue.create ∅ QueueType.VideoCapture true =
      .ok (insert QueueType.VideoCapture ∅) := by
  exact create_probe_atomic ∅ QueueType.VideoCapture (by decide)

/-- C7: when `reqbufs` grants `n` buffers and the layout query on index 0
returns `feat`, `request_buffers` succeeds with a state whose table has
exactly `n` entries, all `Free`, whose cached layout is `feat`, and on
which `num_buffers` returns `n`. -/
theorem request_buffers_spec {H F : Type} (n : Nat) (qb : Nat → Option F)
    (feat : F) (h : qb 0 = some feat) :
    ∃ q : BuffersAllocated H F,
      Queue.request_buffers (some n) qb = some q ∧
      Queue.numBuffers q = n ∧
      q.buffers_state.length = n ∧
      (∀ s ∈ q.buffers_state, s = .Free) ∧
      q.buffer_features = feat := by
  refine ⟨{ num_buffers := n, buffers_state := List.replicate n .Free,
            buffer_features := feat }, ?_, rfl, ?_, ?_, rfl⟩
  · simp [Queue.request_buffers, h]
  · simp [List.length_replicate]
  · intro s hs
    exact List.eq_of_mem_replicate hs

/-- Witness for C7 at `n = 2` with a constant layout query. -/
theorem request_buffers_spec_witness :
    ∃ q : BuffersAllocated Nat Nat,
      Queue.request_buffers (some 2) (fun _ => some 7) = some q ∧
      Queue.numBuffers q = 2 ∧
      q.buffers_state.length = 2 ∧
      (∀ s ∈ q.buffers_state, s = .Free) ∧
      q.buffer_features = 7 :=
  request_buffers_spec 2 (fun _ => some 7) 7 rfl

/-- C8 counterexample: a source whose `len()` is `2 ^ 32` yields a plane
`length` field of 0, not the source's byte length, because of the
`as u32` truncation. -/
theorem fill_v4l2_plane_truncation_cex :
    ((DMABufHandle.fromSrc (RawSrc.mk 3 (2 ^ 32))).fill_v4l2_plane
        (V4l2Plane.mk 0 0 0)).length = 0 ∧
    DMABufSource.len (RawSrc.mk 3 (2 ^ 32)) = 2 ^ 32 ∧ (0 : Nat) ≠ 2 ^ 32 := by
  refine ⟨?_, rfl, by norm_num⟩
  simp [DMABufHandle.fill_v4l2_plane, DMABufHandle.fromSrc, DMABufSource.len]

/-- C8 (amended): `fill_v4l2_plane` sets the descriptor field to the
source's raw file descriptor and the length field to the source's byte
length reduced modulo `2 ^ 32` (the `as u32` cast); in particular they
agree with `len()` exactly when `len() < 2 ^ 32`. Other plane fields are
untouched. -/
theorem fill_v4l2_plane_spec (fdv : Int) (sz : Nat) (p : V4l2Plane) :
    ((DMABufHandle.fromSrc (RawSrc.mk fdv sz)).fill_v4l2_plane p).m_fd =
      fdv ∧
    ((DMABufHandle.fromSrc (RawSrc.mk fdv sz)).fill_v4l2_plane p).length =
      sz % 2 ^ 32 ∧
    ((DMABufHandle.fromSrc (RawSrc.mk fdv sz)).fill_v4l2_plane p).bytesused =
      p.bytesused ∧
    (sz < 2 ^ 32 →
      ((DMABufHandle.fromSrc (RawSrc.mk fdv sz)).fill_v4l2_plane p).length =
        DMABufSource.len (RawSrc.mk fdv sz)) := by
  refine ⟨rfl, rfl, rfl, fun h => ?_⟩
  simp only [DMABufHandle.fill_v4l2_plane, DMABufHandle.fromSrc,
    DMABufSource.len]
  omega

/-- Witness for C8's amended theorem at a concrete small source. -/
theorem fill_v4l2_plane_spec_witness :
    ((DMABufHandle.fromSrc (RawSrc.mk 3 4096)).fill_v4l2_plane
        (V4l2Plane.mk 5 0 0)).m_fd = 3 ∧
    ((DMABufHandle.fromSrc (RawSrc.mk 3 4096)).fill_v4l2_plane
        (V4l2Plane.mk 5 0 0)).length = 4096 % 2 ^ 32 ∧
    ((DMABufHandle.fromSrc (RawSrc.mk 3 4096)).fill_v4l2_plane
        (V4l2Plane.mk 5 0 0)).bytesused = 5 ∧
    (4096 < 2 ^ 32 →
      ((DMABufHandle.fromSrc (RawSrc.mk 3 4096)).fill_v4l2_plane
          (V4l2Plane.mk 5 0 0)).length =
        DMABufSource.len (RawSrc.mk 3 4096)) :=
  fill_v4l2_plane_spec 3 4096 (V4l2Plane.mk 5 0 0)

/-- C9: a file whose size cannot be determined (`metadata()` fails)
reports length 0 as a DMABuf source, and constructing a `DMABufHandle`
from it is a total operation that wraps the resource unchanged — no
error path exists. -/
theorem dmabuf_unknown_size_spec (fdv : Int) :
    DMABufSource.len (FileModel.mk fdv none) = 0 ∧
    (DMABufHandle.fromSrc (FileModel.mk fdv none)).src =
      FileModel.mk fdv none := by
  exact ⟨rfl, rfl⟩

/-- C3: for an in-range `id`, `get_buffer` on a `Free` slot succeeds,
sets the slot to `PreQueue` (Reserved) and arms a fuse for `id`, and a
second acquisition of the same index on the resulting table fails with
`AlreadyBorrowed`; on a slot in any other state it fails with
`AlreadyBorrowed` and returns the table unchanged. -/
theorem get_buffer_spec {H : Type} (t : List (BufferState H))
    (np id : Nat) (h : id < t.length) :
    (t[id]? = some .Free →
      Queue.get_buffer t np id =
        .ok (BufferStateFuse.new id) id np (t.set id .PreQueue) ∧
      Queue.get_buffer (t.set id .PreQueue) np id =
        .alreadyBorrowed (t.set id .PreQueue)) ∧
    (∀ s, t[id]? = some s → s ≠ .Free →
      Queue.get_buffer t np id = .alreadyBorrowed t) := by
  constructor
  · intro hf
    constructor
    · simp [Queue.get_buffer, hf]
    · have hset : (t.set id .PreQueue)[id]? = some .PreQueue :=
        List.getElem?_set_eq_of_lt _ h
      simp [Queue.get_buffer, hset]
  · intro s hs hne
    cases s with
    | Free => exact absurd rfl hne
    | PreQueue => simp [Queue.get_buffer, hs]
    | Queued handles => simp [Queue.get_buffer, hs]
    | Dequeued => simp [Queue.get_buffer, hs]

/-- Witness for C3 on the table `[Free, Dequeued]`. -/
theorem get_buffer_spec_witness :
    (([BufferState.Free, BufferState.Dequeued (H := Nat)][0]? =
        some .Free →
      Queue.get_buffer [BufferState.Free, BufferState.Dequeued (H := Nat)]
          2 0 =
        .ok (BufferStateFuse.new 0) 0 2
          ([BufferState.Free, BufferState.Dequeued].set 0 .PreQueue) ∧
      Queue.get_buffer
          ([BufferState.Free, BufferState.Dequeued (H := Nat)].set 0
            .PreQueue) 2 0 =
        .alreadyBorrowed
          ([BufferState.Free, BufferState.Dequeued].set 0 .PreQueue)) ∧
    (∀ s, [BufferState.Free, BufferState.Dequeued (H := Nat)][0]? =
        some s → s ≠ .Free →
      Queue.get_buffer [BufferState.Free, BufferState.Dequeued (H := Nat)]
          2 0 = .alreadyBorrowed [BufferState.Free, BufferState.Dequeued])) :=
  get_buffer_spec [BufferState.Free, BufferState.Dequeued] 2 0 (by decide)

/-- C5 counterexample: on a one-slot table, `get_buffer 1` hits the
unchecked `buffers_state[id]` indexing and panics; it does not produce
the `AlreadyBorrowed` typed error (nor any other recoverable value). -/
theorem get_buffer_oob_cex :
    Queue.get_buffer [BufferState.Free (H := Nat)] 1 1 =
      GetBufferResult.panic ∧
    ∀ t2 : List (BufferState Nat),
      GetBufferResult.panic ≠ GetBufferResult.alreadyBorrowed t2 := by
  refine ⟨rfl, fun t2 h => ?_⟩
  exact GetBufferResult.noConfusion h

/-- C5 (amended): for every index `id` outside `[0, num_buffers)`,
`get_buffer` panics via the unchecked `Vec` indexing of the buffer-state
table; the `AlreadyBorrowed` typed error is produced only for in-range
indices whose slot is not `Free`. -/
theorem get_buffer_oob_spec {H : Type} (t : List (BufferState H))
    (np id : Nat) (h : t.length ≤ id) :
    Queue.get_buffer t np id = GetBufferResult.panic := by
  have hnone : t[id]? = none := List.getElem?_eq_none h
  simp [Queue.get_buffer, hnone]

/-- Witness for C5's amended theorem. -/
theorem get_buffer_oob_spec_witness :
    Queue.get_buffer [BufferState.Free (H := Nat)] 3 5 =
      GetBufferResult.panic :=
  get_buffer_oob_spec [BufferState.Free] 3 5 (by decide)

/-- C4: when the device-level dequeue succeeds with index `id` and the
slot at `id` is `Queued handles`, `dequeue` sets the slot to `Dequeued`,
arms a new fuse for `id`, and returns a `DQBuffer` owning exactly those
plane handles plus the device-reported payload; when the slot at the
returned index is in any other state, the outcome is the fatal
`unreachable!` panic, never a recoverable error value. -/
theorem dequeue_spec {H Meta : Type} (t : List (BufferState H))
    (d : IoctlDQBuffer Meta) :
    (∀ handles, t[d.index]? = some (.Queued handles) →
      Queue.dequeue t d =
        .ok { plane_handles := handles
              dqbuf := d
              fuse := BufferStateFuse.new d.index }
          (t.set d.index .Dequeued)) ∧
    (∀ s, t[d.index]? = some s → (∀ handles, s ≠ .Queued handles) →
      Queue.dequeue t d = .fatal) := by
  constructor
  · intro handles hq
    simp [Queue.dequeue, hq]
  · intro s hs hne
    cases s with
    | Free => simp [Queue.dequeue, hs]
    | PreQueue => simp [Queue.dequeue, hs]
    | Queued handles => exact absurd rfl (hne handles)
    | Dequeued => simp [Queue.dequeue, hs]

/-- Witness for C4: a successful dequeue of index 1 on
`[Free, Queued [8, 9]]` and a fatal outcome when index 1 holds `Free`. -/
theorem dequeue_spec_witness :
    Queue.dequeue [BufferState.Free, BufferState.Queued [8, 9]]
        (IoctlDQBuffer.mk 1 (37 : Nat)) =
      .ok { plane_handles := [8, 9]
            dqbuf := IoctlDQBuffer.mk 1 37
            fuse := BufferStateFuse.new 1 }
        ([BufferState.Free, BufferState.Queued [8, 9]].set 1 .Dequeued) ∧
    Queue.dequeue [BufferState.Free, BufferState.Free (H := Nat)]
        (IoctlDQBuffer.mk 1 (37 : Nat)) = .fatal :=
  ⟨(dequeue_spec [BufferState.Free, BufferState.Queued [8, 9]]
      (IoctlDQBuffer.mk 1 37)).1 [8, 9] rfl,
   (dequeue_spec [BufferState.Free, BufferState.Free]
      (IoctlDQBuffer.mk 1 37)).2 .Free rfl
      (fun _ h => BufferState.noConfusion h)⟩

theorem streamoffAux_snd {H : Type} (i : Nat) (t : List (BufferState H)) :
    (streamoffAux i t).2 = t.map freeIfQueued := by
  induction t generalizing i with
  | nil => rfl
  | cons s rest ih =>
    cases s <;> simp [streamoffAux, freeIfQueued, ih]

theorem streamoffAux_fst_mem {H : Type} (i : Nat) (t : List (BufferState H))
    (c : CanceledBuffer H) (hc : c ∈ (streamoffAux i t).1) :
    ∃ j, c.index = i + j ∧ t[j]? = some (.Queued c.plane_handles) := by
  induction t generalizing i with
  | nil => simp [streamoffAux] at hc
  | cons s rest ih =>
    cases s with
    | Queued handles =>
      simp only [streamoffAux, List.mem_cons] at hc
      rcases hc with h | h
      · exact ⟨0, by simp [h], by simp [h]⟩
      · obtain ⟨j, hj, hget⟩ := ih (i + 1) h
        exact ⟨j + 1, by omega, by simpa using hget⟩
    | Free =>
      simp only [streamoffAux] at hc
      obtain ⟨j, hj, hget⟩ := ih (i + 1) hc
      exact ⟨j + 1, by omega, by simpa using hget⟩
    | PreQueue =>
      simp only [streamoffAux] at hc
      obtain ⟨j, hj, hget⟩ := ih (i + 1) hc
      exact ⟨j + 1, by omega, by simpa using hget⟩
    | Dequeued =>
      simp only [streamoffAux] at hc
      obtain ⟨j, hj, hget⟩ := ih (i + 1) hc
      exact ⟨j + 1, by omega, by simpa using hget⟩

theorem streamoffAux_fst_complete {H : Type} (i : Nat)
    (t : List (BufferState H)) (j : Nat) (handles : List H)
    (hget : t[j]? = some (.Queued handles)) :
    CanceledBuffer.mk (i + j) handles ∈ (streamoffAux i t).1 := by
  induction t generalizing i j with
  | nil => simp at hget
  | cons s rest ih =>
    cases j with
    | zero =>
      simp only [List.getElem?_cons_zero, Option.some_inj] at hget
      subst hget
      simp [streamoffAux]
    | succ j =>
      have hrest : rest[j]? = some (.Queued handles) := by simpa using hget
      have hmem := ih (i + 1) j hrest
      have hidx : i + (j + 1) = (i + 1) + j := by omega
      rw [hidx]
      cases s <;> simp [streamoffAux, hmem]

theorem streamoffAux_fst_lb {H : Type} (i : Nat) (t : List (BufferState H))
    (c : CanceledBuffer H) (hc : c ∈ (streamoffAux i t).1) :
    i ≤ c.index := by
  obtain ⟨j, hj, _⟩ := streamoffAux_fst_mem i t c hc
  omega

theorem streamoffAux_fst_sorted {H : Type} (i : Nat)
    (t : List (BufferState H)) :
    List.Pairwise (fun a b : CanceledBuffer H => a.index < b.index)
      (streamoffAux i t).1 := by
  induction t generalizing i with
  | nil => simp [streamoffAux]
  | cons s rest ih =>
    cases s with
    | Queued handles =>
      simp only [streamoffAux]
      refine List.Pairwise.cons ?_ (ih (i + 1))
      intro b hb
      have hlb := streamoffAux_fst_lb (i + 1) rest b hb
      show i < b.index
      omega
    | Free => simpa only [streamoffAux] using ih (i + 1)
    | PreQueue => simpa only [streamoffAux] using ih (i + 1)
    | Dequeued => simpa only [streamoffAux] using ih (i + 1)

/-- C2: a successful `streamoff` sets every `Queued` slot to `Free`,
leaves every `Free`, `PreQueue` (Reserved) and `Dequeued` slot unchanged
(so no slot is `Queued` afterwards and the table length is preserved),
and returns exactly one `CanceledBuffer` per previously-`Queued` slot —
each carrying that slot's handles, each canceled entry coming from such a
slot, in strictly ascending index order. -/
theorem streamoff_spec {H : Type} (t : List (BufferState H)) :
    (Queue.streamoff t).2.length = t.length ∧
    (∀ (j : Nat) (handles : List H),
      t[j]? = some (BufferState.Queued handles) →
      (Queue.streamoff t).2[j]? = some .Free) ∧
    (∀ (j : Nat) (s : BufferState H), t[j]? = some s →
      (∀ handles, s ≠ BufferState.Queued handles) →
      (Queue.streamoff t).2[j]? = some s) ∧
    (∀ (j : Nat) (handles : List H),
      (Queue.streamoff t).2[j]? ≠ some (BufferState.Queued handles)) ∧
    (∀ c ∈ (Queue.streamoff t).1,
      t[c.index]? = some (BufferState.Queued c.plane_handles)) ∧
    (∀ (j : Nat) (handles : List H),
      t[j]? = some (BufferState.Queued handles) →
      CanceledBuffer.mk j handles ∈ (Queue.streamoff t).1) ∧
    List.Pairwise (fun a b : CanceledBuffer H => a.index < b.index)
      (Queue.streamoff t).1 := by
  have hsnd : (Queue.streamoff t).2 = t.map freeIfQueued :=
    streamoffAux_snd 0 t
  refine ⟨?_, ?_, ?_, ?_, ?_, ?_, ?_⟩
  · rw [hsnd, List.length_map]
  · intro j handles hj
    rw [hsnd, List.getElem?_map, hj]
    rfl
  · intro j s hj hne
    rw [hsnd, List.getElem?_map, hj]
    cases s with
    | Free => rfl
    | PreQueue => rfl
    | Queued handles => exact absurd rfl (hne handles)
    | Dequeued => rfl
  · intro j handles hcontra
    rw [hsnd, List.getElem?_map] at hcontra
    cases hj : t[j]? with
    | none => rw [hj] at hcontra; exact Option.noConfusion hcontra
    | some s =>
      rw [hj] at hcontra
      cases s <;> simp [freeIfQueued] at hcontra
  · intro c hc
    obtain ⟨j, hj, hget⟩ := streamoffAux_fst_mem 0 t c hc
    rw [hj]
    simpa using hget
  · intro j handles hj
    have := streamoffAux_fst_complete 0 t j handles hj
    simpa using this
  · exact streamoffAux_fst_sorted 0 t

/-- Witness for C2 on `[Free, Queued [3], PreQueue, Queued [4, 5],
Dequeued]`: canceled entries for indices 1 and 3 with their handles,
index 2 untouched, index 1 freed. -/
theorem streamoff_spec_witness :
    (Queue.streamoff [BufferState.Free, BufferState.Queued [3],
        BufferState.PreQueue, BufferState.Queued [4, 5],
        BufferState.Dequeued (H := Nat)]).2.length = 5 ∧
    (Queue.streamoff [BufferState.Free, BufferState.Queued [3],
        BufferState.PreQueue, BufferState.Queued [4, 5],
        BufferState.Dequeued (H := Nat)]).2[1]? = some .Free ∧
    (Queue.streamoff [BufferState.Free, BufferState.Queued [3],
        BufferState.PreQueue, BufferState.Queued [4, 5],
        BufferState.Dequeued (H := Nat)]).2[2]? = some .PreQueue ∧
    CanceledBuffer.mk 1 [3] ∈
      (Queue.streamoff [BufferState.Free, BufferState.Queued [3],
        BufferState.PreQueue, BufferState.Queued [4, 5],
        BufferState.Dequeued (H := Nat)]).1 ∧
    CanceledBuffer.mk 3 [4, 5] ∈
      (Queue.streamoff [BufferState.Free, BufferState.Queued [3],
        BufferState.PreQueue, BufferState.Queued [4, 5],
        BufferState.Dequeued (H := Nat)]).1 ∧
    List.Pairwise (fun a b : CanceledBuffer Nat => a.index < b.index)
      (Queue.streamoff [BufferState.Free, BufferState.Queued [3],
        BufferState.PreQueue, BufferState.Queued [4, 5],
        BufferState.Dequeued (H := Nat)]).1 := by
  have h := streamoff_spec [BufferState.Free, BufferState.Queued [3],
    BufferState.PreQueue, BufferState.Queued [4, 5],
    BufferState.Dequeued (H := Nat)]
  exact ⟨h.1, h.2.1 1 [3] rfl,
    h.2.2.1 2 .PreQueue rfl (fun handles hcon => BufferState.noConfusion hcon),
    h.2.2.2.2.2.1 1 [3] rfl, h.2.2.2.2.2.1 3 [4, 5] rfl,
    h.2.2.2.2.2.2⟩

end V4l2
